import Mathlib

/-!
Verification of the utrstats score decoder and season-statistics aggregator.

The definitions below are a shallow embedding of the JavaScript source:
the inner digit-scanning loop of parseScoresFromRawText, the fixMatchData
normalizer and walkover handling from scraper-full.js, and the generateStats
fold (singles path) of generate-full-review.js.  Set strings pushed by the
decoder ("5-7", "7-6(3-1)", "1-0(10-6)", "1-0") are represented by the
structured SetToken type; each constructor corresponds to exactly one string
shape, and the aggregator dispatch below mirrors the regular-expression
cascade of the source applied to the rendered string of each constructor.
Digit lists model the arrays produced by splitting a digit string, so each
element is a single digit 0..9.
-/

/-- Structured form of the set strings the decoder pushes.
plain a b renders "a-b" (regular sets, and the un-indicated super-tiebreak
fallback), tb renders "a-b(x-y)" (tiebreak with embedded sub-score),
stb renders "1-0(u-o)" or "0-1(u-o)" (super tiebreak with score),
stbBare renders "1-0" or "0-1" (super tiebreak, score unknown). -/
inductive SetToken where
  | plain (my opp : Nat)
  | tb (my opp subMy subOpp : Nat)
  | stb (userWon : Bool) (user opp : Nat)
  | stbBare (userWon : Bool)
deriving DecidableEq, Repr

/-- Value of a digit list read as a decimal numeral, i.e. parseInt of the
joined digit string. -/
def digitsToNat (l : List Nat) : Nat := l.foldl (fun a d => 10 * a + d) 0

/-- Test on a digit pair from the regular-set branch of the scan
(source lines 333-341 of the generator). -/
def isValidSet (my opp : Nat) : Bool :=
  decide ((my = 6 ∧ opp ≤ 4) ∨ (opp = 6 ∧ my ≤ 4) ∨ (my = 7 ∧ opp = 5) ∨
    (opp = 7 ∧ my = 5) ∨ (my = 7 ∧ opp = 6) ∨ (opp = 7 ∧ my = 6) ∨
    (my ≤ 6 ∧ opp ≤ 6 ∧ (my ≠ 0 ∨ opp ≠ 0)))

/-- Scoreless super-tiebreak emission: "1-0" when the indicator digit on my
side is 1, else "0-1" (source lines 306-326). -/
def stbNoScore (my : Nat) : List SetToken × Nat × Nat :=
  if my = 1 then ([SetToken.stbBare true], 1, 0) else ([SetToken.stbBare false], 0, 1)

/-- Emission step of the super-tiebreak branch (source lines 290-326): a
candidate score is accepted when one side is at least 10, else the
scoreless form is emitted. -/
def stbEmit (my : Nat) (p : Nat × Nat) : List SetToken × Nat × Nat :=
  if 10 ≤ p.1 ∨ 10 ≤ p.2 then
    if p.1 > p.2 then ([SetToken.stb true p.1 p.2], 1, 0)
    else ([SetToken.stb false p.1 p.2], 0, 1)
  else stbNoScore my

/-- Remaining digit streams after the indicator pair, consuming the
continuation marker when the next pair is (1,1) and two more digits exist
on both sides (source lines 165-182). -/
def stbRem (us os : List Nat) : List Nat × List Nat :=
  let skip : Bool := us.head? == some 1 && os.head? == some 1 &&
    decide (2 ≤ us.length) && decide (2 ≤ os.length)
  (if skip then us.tail else us, if skip then os.tail else os)

/-- Candidate super-tiebreak score from the remaining digits: the special
"0-11" case, then the ordered strategies, then wholesale concatenation
(source lines 184-287). -/
def stbScore (us os : List Nat) : Nat × Nat :=
  let nextUser := us.head?
  let nextOpp := os.head?
  let remU := (stbRem us os).1
  let remO := (stbRem us os).2
  -- special case for the "0-11" indicator layout (source lines 193-218)
  let s0 : Nat × Nat :=
    if nextUser == some 1 && nextOpp == some 1 && remO.head? == some 0 then
      (10, remU.headD 0)
    else (0, 0)
  -- strategy 1 (source lines 221-280)
  let s1 : Nat × Nat :=
    if s0.1 < 10 ∧ s0.2 < 10 then
      if 2 ≤ remO.length then
        let oppFirstTwo := 10 * remO.headD 0 + remO.tail.headD 0
        let userSingle := remU.getLastD 0
        if 10 ≤ oppFirstTwo then (userSingle, oppFirstTwo)
        else if 2 ≤ remU.length then
          let userFirstTwo := 10 * remU.headD 0 + remU.tail.headD 0
          let oppSingle := remO.getLastD 0
          if 10 ≤ userFirstTwo then (userFirstTwo, oppSingle) else s0
        else s0
      else if 3 ≤ remO.length then
        -- dead in the source as well: 3 ≤ length implies 2 ≤ length
        let oppLastTwo := 10 * remO.dropLast.getLastD 0 + remO.getLastD 0
        let userSingle := remU.getLastD 0
        if 10 ≤ oppLastTwo then (userSingle, oppLastTwo) else s0
      else if remO.length = 1 ∧ remU.length = 1 then
        if nextUser == some 1 && nextOpp == some 1 && remO.head? == some 0 &&
            decide (0 < remU.headD 0) then
          (remU.headD 0, 10)
        else s0
      else s0
    else s0
  -- strategy 2: combine all remaining digits (source lines 283-287)
  if s1.1 < 10 ∧ s1.2 < 10 then (digitsToNat remU, digitsToNat remO) else s1

/-- Super-tiebreak branch of the scan, entered after an (0,1)/(1,0) indicator
pair.  my is the indicator digit on the user side; us and os are the digits
after the indicator (source lines 162-327). -/
def stbScan (my : Nat) (us os : List Nat) : List SetToken × Nat × Nat :=
  if (stbRem us os).1 ≠ [] ∧ (stbRem us os).2 ≠ [] then stbEmit my (stbScore us os)
  else stbNoScore my

/-- Fallback branch: all remaining digits on both sides are read as an
un-indicated super tiebreak (source lines 352-367). -/
def fallbackScan (u o : List Nat) : List SetToken × Nat × Nat :=
  if u ≠ [] ∧ o ≠ [] then
    let sU := digitsToNat u
    let sO := digitsToNat o
    if (10 ≤ sU ∨ 10 ≤ sO) ∧ sU ≠ sO then
      if sU > sO then ([SetToken.plain sU sO], 1, 0) else ([SetToken.plain sU sO], 0, 1)
    else ([], 0, 0)
  else ([], 0, 0)

/-- Prepend one emitted set together with its contribution to the two
set-win counters. -/
def consSet (t : SetToken) (uinc oinc : Nat) (r : List SetToken × Nat × Nat) :
    List SetToken × Nat × Nat :=
  (t :: r.1, uinc + r.2.1, oinc + r.2.2)

/-- Main left-to-right scan over the two digit streams (source lines 95-368).
Returns the emitted sets and the two set-win counters. -/
def scan : List Nat → List Nat → List SetToken × Nat × Nat
  | [], _ => ([], 0, 0)
  | _ :: _, [] => ([], 0, 0)
  | my :: us, opp :: os =>
    if (my = 7 ∧ opp = 6) ∨ (my = 6 ∧ opp = 7) then
      match us, os with
      | nm :: us2, no :: os2 =>
        if nm ≤ 7 ∧ no ≤ 7 then
          consSet (SetToken.tb my opp nm no) (if my > opp then 1 else 0)
            (if my > opp then 0 else 1) (scan us2 os2)
        else
          consSet (SetToken.plain my opp) (if my > opp then 1 else 0)
            (if my > opp then 0 else 1) (scan (nm :: us2) (no :: os2))
      | _, _ =>
        consSet (SetToken.plain my opp) (if my > opp then 1 else 0)
          (if my > opp then 0 else 1) ([], 0, 0)
    else if (my = 0 ∧ opp = 1) ∨ (my = 1 ∧ opp = 0) then
      stbScan my us os
    else if my ≤ 7 ∧ opp ≤ 7 ∧ isValidSet my opp = true then
      consSet (SetToken.plain my opp) (if my > opp then 1 else 0)
        (if opp > my then 1 else 0) (scan us os)
    else fallbackScan (my :: us) (opp :: os)

/-- Decoder on the two extracted digit lists: emitted sets together with the
derived winner flag (userSetsWon > oppSetsWon, source lines 370-373). -/
def decodeDigits (u o : List Nat) : List SetToken × Bool :=
  let r := scan u o
  (r.1, decide (r.2.1 > r.2.2))

/-- Top level of parseScoresFromRawText.  The argument models the result of
the rating-marker regular expression that isolates the two digit runs from
the raw text: none when no two digit runs could be extracted (or rawText is
absent), in which case the source returns sets = [] and won = null. -/
def parseScoresFromRawText (extraction : Option (List Nat × List Nat)) :
    List SetToken × Option Bool :=
  match extraction with
  | none => ([], none)
  | some (u, o) =>
    let r := scan u o
    (r.1, some (decide (r.2.1 > r.2.2)))

example : decodeDigits [6, 6] [4, 0] = ([SetToken.plain 6 4, SetToken.plain 6 0], true) := by
  decide

example : decodeDigits [6, 7, 7] [3, 6, 3] =
    ([SetToken.plain 6 3, SetToken.tb 7 6 7 3], true) := by
  decide

/-!
Per-set analysis of generateStats (source lines 698-797).  The source
dispatches on the set string with a cascade of regular expressions:
super tiebreak with score, bare super tiebreak, tiebreak, then a plain
numeric parse with a score ≥ 10 reclassified as a super tiebreak.  The
dispatch below is that cascade applied to the rendered string of each
SetToken constructor.
-/

/-- Per-match accumulator of the per-set forEach in generateStats. -/
structure SetAn where
  setsW : Nat := 0
  setsL : Nat := 0
  gamesW : Nat := 0
  gamesL : Nat := 0
  tbW : Nat := 0
  tbL : Nat := 0
  stbW : Nat := 0
  stbL : Nat := 0
  bagG : Nat := 0
  bagR : Nat := 0
  brG : Nat := 0
  brR : Nat := 0
  hasSTB : Bool := false
deriving DecidableEq, Repr

/-- Super-tiebreak win branch (source lines 716-718 and analogues). -/
def stbWonStep (a : SetAn) : SetAn :=
  { a with hasSTB := true, stbW := a.stbW + 1, setsW := a.setsW + 1 }

/-- Super-tiebreak loss branch (source lines 719-722 and analogues). -/
def stbLostStep (a : SetAn) : SetAn :=
  { a with hasSTB := true, stbL := a.stbL + 1, setsL := a.setsL + 1 }

/-- Tiebreak branch: a string matching ([67])-([67]) with optional sub-score
(source lines 742-760).  Games are counted on both sides; the tiebreak
counters move only for exact 7-6 or 6-7. -/
def tbStep (a : SetAn) (my opp : Nat) : SetAn :=
  { a with
    tbW := if my = 7 ∧ opp = 6 then a.tbW + 1 else a.tbW,
    tbL := if my = 6 ∧ opp = 7 then a.tbL + 1 else a.tbL,
    gamesW := a.gamesW + my,
    gamesL := a.gamesL + opp,
    setsW := if my > opp then a.setsW + 1 else a.setsW,
    setsL := if my > opp then a.setsL else a.setsL + 1 }

/-- Plain numeric branch (source lines 763-796): a score of 10 or more is a
super tiebreak and adds no games; otherwise games, set winner and
bagel/breadstick counters are updated. -/
def regStep (a : SetAn) (my opp : Nat) : SetAn :=
  if 10 ≤ my ∨ 10 ≤ opp then
    if my > opp then stbWonStep a else stbLostStep a
  else
    { a with
      gamesW := a.gamesW + my,
      gamesL := a.gamesL + opp,
      setsW := if my > opp then a.setsW + 1 else a.setsW,
      setsL := if opp > my then a.setsL + 1 else a.setsL,
      bagG := if my = 6 ∧ opp = 0 then a.bagG + 1 else a.bagG,
      bagR := if my = 0 ∧ opp = 6 then a.bagR + 1 else a.bagR,
      brG := if my = 6 ∧ opp = 1 then a.brG + 1 else a.brG,
      brR := if my = 1 ∧ opp = 6 then a.brR + 1 else a.brR }

/-- One step of the per-set forEach of generateStats: the regex dispatch of
the source applied to the rendered string of the token. -/
def setStep (a : SetAn) (s : SetToken) : SetAn :=
  match s with
  | SetToken.stb w _ _ => if w then stbWonStep a else stbLostStep a
  | SetToken.stbBare w => if w then stbWonStep a else stbLostStep a
  | SetToken.tb my opp _ _ =>
    -- "1-0(x-y)" and "0-1(x-y)" match the super-tiebreak regex first
    if my ≤ 1 ∧ opp ≤ 1 then (if my = 1 then stbWonStep a else stbLostStep a)
    else if (my = 6 ∨ my = 7) ∧ (opp = 6 ∨ opp = 7) then tbStep a my opp
    else regStep a my opp
  | SetToken.plain my opp =>
    -- a bare "1-0"/"0-1"/"1-1"/"0-0" matches the bare super-tiebreak pattern
    if my ≤ 1 ∧ opp ≤ 1 then (if my = 1 then stbWonStep a else stbLostStep a)
    else if (my = 6 ∨ my = 7) ∧ (opp = 6 ∨ opp = 7) then tbStep a my opp
    else regStep a my opp

/-- Analysis of a whole set list (the per-set forEach). -/
def analyzeSets (l : List SetToken) : SetAn := l.foldl setStep {}

/-- Per-opponent aggregate entry (source lines 679-695 and 827-832). -/
structure OppAgg where
  played : Nat := 0
  wins : Nat := 0
  losses : Nat := 0
  gamesWon : Nat := 0
  gamesLost : Nat := 0
  setsWon : Nat := 0
  setsLost : Nat := 0
  utr : ℚ := 0
  oid : Option String := none
deriving DecidableEq, Repr

/-- Normalized match record consumed by generateStats (singles path). -/
structure AMatch where
  won : Option Bool
  isWalkover : Bool
  sets : List SetToken
  opponent : Option String
  opponentId : Option String
  month : Option Nat
  myUtr : Option ℚ
  myUtrBefore : Option ℚ
  oppUtr : Option ℚ
  oppUtrBefore : Option ℚ
deriving DecidableEq, Repr

/-- JavaScript truthiness of an optional rating: undefined and 0 are falsy. -/
def truthyQ : Option ℚ → Option ℚ
  | some x => if x = 0 then none else some x
  | none => none

/-- The source idiom a || b || 0 on two optional ratings. -/
def jsOrQ (a b : Option ℚ) : ℚ :=
  match truthyQ a with
  | some x => x
  | none => (truthyQ b).getD 0

/-- JavaScript truthiness of the opponent name: undefined and "" are falsy. -/
def oppKey (m : AMatch) : Option String :=
  match m.opponent with
  | some s => if s = "" then none else some s
  | none => none

/-- Entry pushed onto stats.matches for a non-walkover match
(source lines 850-867), restricted to the fields later read by the
monthly-breakdown and comeback passes. -/
structure PushedM where
  month : Option Nat
  opponent : String
  won : Option Bool
  sets : List SetToken
  myUtr : ℚ
  oppUtr : ℚ
deriving DecidableEq, Repr

/-- Fold state of generateStats (singles path), including the two local
streak variables of the source. -/
structure AggState where
  wins : Nat := 0
  losses : Nat := 0
  walkovers : Nat := 0
  vsHigherW : Nat := 0
  vsHigherL : Nat := 0
  vsLowerW : Nat := 0
  vsLowerL : Nat := 0
  bagelsGiven : Nat := 0
  bagelsReceived : Nat := 0
  breadsticksGiven : Nat := 0
  breadsticksReceived : Nat := 0
  tiebreaksWon : Nat := 0
  tiebreaksLost : Nat := 0
  superTiebreaksWon : Nat := 0
  superTiebreaksLost : Nat := 0
  setsRecordWon : Nat := 0
  setsRecordLost : Nat := 0
  gamesRecordWon : Nat := 0
  gamesRecordLost : Nat := 0
  decidingSetsWon : Nat := 0
  decidingSetsLost : Nat := 0
  wonWithFewer : Nat := 0
  lostWithMore : Nat := 0
  opponents : List (String × OppAgg) := []
  curWinStreak : Nat := 0
  curLossStreak : Nat := 0
  longestWinStreak : Nat := 0
  longestLossStreak : Nat := 0
  pushed : List PushedM := []
deriving DecidableEq, Repr

/-- Update of the insertion-ordered opponent table: create the entry on
first encounter, then apply the update to the entry in place. -/
def updOpp (l : List (String × OppAgg)) (key : String) (e0 : OppAgg)
    (f : OppAgg → OppAgg) : List (String × OppAgg) :=
  match l with
  | [] => [(key, f e0)]
  | (k, e) :: rest =>
    if k = key then (k, f e) :: rest else (k, e) :: updOpp rest key e0 f

/-- Deciding-set test of the source (line 835): both per-match set counters
are positive, or some set was classified as a super tiebreak. -/
def deciderCond (an : SetAn) : Prop := (1 ≤ an.setsW ∧ 1 ≤ an.setsL) ∨ an.hasSTB = true

instance (an : SetAn) : Decidable (deciderCond an) := by
  unfold deciderCond; infer_instance

/-- Entry appended to stats.matches for a non-walkover match. -/
def mkPushed (m : AMatch) (myU oppU : ℚ) : PushedM :=
  { month := m.month,
    opponent := (oppKey m).getD "Unknown",
    won := m.won,
    sets := m.sets,
    myUtr := myU,
    oppUtr := oppU }

/-- Per-match body of generateStats for a non-walkover match
(source lines 574-867), expressed field by field; each field collects the
increments the sequential source applies to it. -/
def stepNonWalk (st : AggState) (m : AMatch) : AggState :=
  let myU := jsOrQ m.myUtr m.myUtrBefore
  let oppU := jsOrQ m.oppUtr m.oppUtrBefore
  let an := analyzeSets m.sets
  let hasSets := m.sets ≠ []
  let oppPhase1 :=
    match oppKey m with
    | some key =>
      updOpp st.opponents key { utr := oppU, oid := m.opponentId }
        (fun e =>
          { e with
            played := e.played + 1,
            wins := if m.won = some true then e.wins + 1 else e.wins,
            losses := if m.won = some false then e.losses + 1 else e.losses })
    | none => st.opponents
  let oppPhase2 :=
    if hasSets then
      match oppKey m with
      | some key =>
        updOpp oppPhase1 key { utr := oppU, oid := m.opponentId }
          (fun e =>
            { e with
              gamesWon := e.gamesWon + an.gamesW,
              gamesLost := e.gamesLost + an.gamesL,
              setsWon := e.setsWon + an.setsW,
              setsLost := e.setsLost + an.setsL })
      | none => oppPhase1
    else oppPhase1
  { wins := if m.won = some true then st.wins + 1 else st.wins,
    losses := if m.won = some false then st.losses + 1 else st.losses,
    walkovers := st.walkovers,
    vsHigherW := if m.won = some true ∧ oppU > myU then st.vsHigherW + 1 else st.vsHigherW,
    vsHigherL := if m.won = some false ∧ oppU > myU then st.vsHigherL + 1 else st.vsHigherL,
    vsLowerW := if m.won = some true ∧ ¬oppU > myU then st.vsLowerW + 1 else st.vsLowerW,
    vsLowerL := if m.won = some false ∧ ¬oppU > myU then st.vsLowerL + 1 else st.vsLowerL,
    bagelsGiven := st.bagelsGiven + if hasSets then an.bagG else 0,
    bagelsReceived := st.bagelsReceived + if hasSets then an.bagR else 0,
    breadsticksGiven := st.breadsticksGiven + if hasSets then an.brG else 0,
    breadsticksReceived := st.breadsticksReceived + if hasSets then an.brR else 0,
    tiebreaksWon := st.tiebreaksWon + if hasSets then an.tbW else 0,
    tiebreaksLost := st.tiebreaksLost + if hasSets then an.tbL else 0,
    superTiebreaksWon := st.superTiebreaksWon + if hasSets then an.stbW else 0,
    superTiebreaksLost := st.superTiebreaksLost + if hasSets then an.stbL else 0,
    setsRecordWon := st.setsRecordWon + if hasSets then an.setsW else 0,
    setsRecordLost := st.setsRecordLost + if hasSets then an.setsL else 0,
    gamesRecordWon := st.gamesRecordWon + if hasSets then an.gamesW else 0,
    gamesRecordLost := st.gamesRecordLost + if hasSets then an.gamesL else 0,
    decidingSetsWon :=
      if hasSets ∧ m.won = some true ∧ deciderCond an then st.decidingSetsWon + 1
      else st.decidingSetsWon,
    decidingSetsLost :=
      if hasSets ∧ m.won = some false ∧ deciderCond an then st.decidingSetsLost + 1
      else st.decidingSetsLost,
    wonWithFewer :=
      if hasSets ∧ m.won = some true ∧ an.gamesW < an.gamesL then st.wonWithFewer + 1
      else st.wonWithFewer,
    lostWithMore :=
      if hasSets ∧ m.won = some false ∧ an.gamesW > an.gamesL then st.lostWithMore + 1
      else st.lostWithMore,
    opponents := oppPhase2,
    curWinStreak :=
      if m.won = some true then st.curWinStreak + 1
      else if m.won = some false then 0 else st.curWinStreak,
    curLossStreak :=
      if m.won = some false then st.curLossStreak + 1
      else if m.won = some true then 0 else st.curLossStreak,
    longestWinStreak :=
      if m.won = some true then max st.longestWinStreak (st.curWinStreak + 1)
      else st.longestWinStreak,
    longestLossStreak :=
      if m.won = some false then max st.longestLossStreak (st.curLossStreak + 1)
      else st.longestLossStreak,
    pushed := st.pushed ++ [mkPushed m myU oppU] }

/-- Per-match step of generateStats: a walkover only bumps the walkover
counter and is skipped otherwise (source lines 567-572). -/
def stepMatch (st : AggState) (m : AMatch) : AggState :=
  if m.isWalkover then { st with walkovers := st.walkovers + 1 } else stepNonWalk st m

/-- Fold of generateStats over the match list. -/
def genState (ms : List AMatch) : AggState := ms.foldl stepMatch {}

/-!
Monthly breakdown (source lines 1199-1235).  Buckets are stored in
first-appearance order, mirroring JavaScript object property insertion
order, and the final sort is stable, mirroring Array.prototype.sort.
-/

/-- Monthly entry after the win-percentage map (source lines 1219-1228). -/
structure MonthEntry where
  month : Nat
  wins : Nat
  losses : Nat
  total : Nat
  winPct : Nat
deriving DecidableEq, Repr

/-- Math.round(w / t * 100) for natural w and positive t. -/
def jsRoundPct (w t : Nat) : Nat := (200 * w + t) / (2 * t)

/-- Bucket the pushed matches by calendar month, in first-appearance order;
a match with no date is skipped (source lines 1200-1216). -/
def bucketMonths (pm : List PushedM) : List (Nat × Nat × Nat) :=
  pm.foldl
    (fun acc m =>
      match m.month with
      | none => acc
      | some k =>
        let acc1 := if acc.any (fun b => b.1 = k) then acc else acc ++ [(k, 0, 0)]
        acc1.map (fun b =>
          if b.1 = k then
            (b.1, (if m.won = some true then b.2.1 + 1 else b.2.1),
              (if m.won = some false then b.2.2 + 1 else b.2.2))
          else b))
    []

/-- Map a bucket to its monthly entry with win percentage. -/
def mkMonthEntry (b : Nat × Nat × Nat) : MonthEntry :=
  let t := b.2.1 + b.2.2
  { month := b.1, wins := b.2.1, losses := b.2.2, total := t,
    winPct := if 0 < t then jsRoundPct b.2.1 t else 0 }

/-- monthlyData of the source: entries with at least one decided match. -/
def monthlyData (pm : List PushedM) : List MonthEntry :=
  ((bucketMonths pm).map mkMonthEntry).filter (fun e => decide (0 < e.total))

/-- Stable insertion before the first element of not-greater win percentage:
one step of the stable descending sort. -/
def insDesc (x : MonthEntry) : List MonthEntry → List MonthEntry
  | [] => [x]
  | h :: t => if h.winPct > x.winPct then h :: insDesc x t else x :: h :: t

/-- Stable sort by win percentage, descending: the behaviour of
monthlyData.sort((a, b) => b.winPct - a.winPct) under the ECMAScript
stable-sort guarantee (source line 1231). -/
def sortDescM : List MonthEntry → List MonthEntry
  | [] => []
  | x :: l => insDesc x (sortDescM l)

/-- bestMonth of the source: head of the sorted monthly data (line 1234). -/
def bestMonthOf (pm : List PushedM) : Option MonthEntry :=
  (sortDescM (monthlyData pm)).head?

/-- worstMonth of the source: last of the sorted monthly data (line 1235). -/
def worstMonthOf (pm : List PushedM) : Option MonthEntry :=
  (sortDescM (monthlyData pm)).getLast?

/-- Maximum win percentage over a list of entries, none when empty. -/
def maxPct? (l : List MonthEntry) : Option Nat :=
  l.foldr
    (fun e a =>
      match a with
      | none => some e.winPct
      | some v => some (max e.winPct v))
    none

/-- Minimum win percentage over a list of entries, none when empty. -/
def minPct? (l : List MonthEntry) : Option Nat :=
  l.foldr
    (fun e a =>
      match a with
      | none => some e.winPct
      | some v => some (min e.winPct v))
    none

/-- First entry attaining the maximum win percentage. -/
def firstMax (l : List MonthEntry) : Option MonthEntry :=
  match maxPct? l with
  | none => none
  | some p => l.find? (fun e => e.winPct == p)

/-- Last entry attaining the minimum win percentage. -/
def lastMin (l : List MonthEntry) : Option MonthEntry :=
  match minPct? l with
  | none => none
  | some p => l.reverse.find? (fun e => e.winPct == p)

/-!
Comeback pass of generateStats (source lines 1241-1255).  The first set
string is split on every dash, so a set carrying a parenthesized sub-score
splits into three parts and the match is skipped.
-/

/-- Scores of the first set as read by the comeback pass: none when the
dash-split of the rendered string does not have exactly two parts. -/
def firstSetScores : SetToken → Option (Nat × Nat)
  | SetToken.plain a b => some (a, b)
  | SetToken.tb _ _ _ _ => none
  | SetToken.stb _ _ _ => none
  | SetToken.stbBare w => if w then some (1, 0) else some (0, 1)

/-- Comeback and choke counters over the pushed match list. -/
def comebacksOf (pm : List PushedM) : Nat × Nat :=
  pm.foldl
    (fun cb m =>
      if m.sets.length < 2 then cb
      else
        match m.sets.head? with
        | none => cb
        | some s0 =>
          match firstSetScores s0 with
          | none => cb
          | some (a, b) =>
            if m.won = some true ∧ ¬a > b then (cb.1 + 1, cb.2)
            else if m.won = some false ∧ a > b then (cb.1, cb.2 + 1)
            else cb)
    (0, 0)

/-!
Walkover detection in the scraper (scraper-full.js lines 1889-1897 and
2061-2077) and the normalization step fixMatchData (source lines 415-519).
Raw text is modeled as a character list; the helpers below are the
JavaScript string operations used by the source.
-/

/-- Character-wise lowercasing, the ASCII behaviour of toLowerCase. -/
def lowerL (s : List Char) : List Char := s.map Char.toLower

/-- Whether the pattern is an initial segment of the text. -/
def leadsWith : List Char → List Char → Bool
  | [], _ => true
  | _ :: _, [] => false
  | p :: ps, c :: cs => p == c && leadsWith ps cs

/-- JavaScript String.prototype.includes on character lists. -/
def hasSub (pat : List Char) : List Char → Bool
  | [] => leadsWith pat []
  | c :: cs => leadsWith pat (c :: cs) || hasSub pat cs

/-- JavaScript String.prototype.indexOf on character lists, none for -1. -/
def subIdx (pat : List Char) : List Char → Option Nat
  | [] => if leadsWith pat [] then some 0 else none
  | c :: cs =>
    if leadsWith pat (c :: cs) then some 0 else (subIdx pat cs).map (· + 1)

/-- playerName.split(" ")[0]: the characters before the first space. -/
def firstWord (s : List Char) : List Char := s.takeWhile (fun c => c != ' ')

/-- The walkover marker searched for in the lowercased raw text. -/
def wmark : List Char := "walkover".data

/-- Match record as produced by the scraper and consumed by fixMatchData. -/
structure SMatch where
  rawText : List Char
  won : Option Bool
  isWalkover : Bool
  sets : List SetToken
  extraction : Option (List Nat × List Nat)
deriving DecidableEq, Repr

/-- Winner by set count as computed in the scraper (scraper-full.js lines
2063-2076): each set string is split on the dash; strings with a
parenthesized sub-score split into three parts and are skipped. -/
def setsCountWon (sets : List SetToken) : Bool :=
  let r := sets.foldl
    (fun (p : Nat × Nat) t =>
      match firstSetScores t with
      | none => p
      | some (a, b) =>
        if a > b then (p.1 + 1, p.2)
        else if b > a then (p.1, p.2 + 1)
        else p)
    (0, 0)
  decide (r.1 > r.2)

/-- Scraper model for one card (scraper-full.js lines 1889-1897 and
2061-2077): a raw text containing the walkover marker sets isWalkover and
resolves won from the text before the marker; otherwise won comes from the
set count when sets are present. -/
def scrapeMatchModel (rawText playerName : List Char) (sets : List SetToken)
    (extraction : Option (List Nat × List Nat)) : SMatch :=
  let isW := hasSub wmark (lowerL rawText)
  let wonWalk : Option Bool :=
    if isW then
      some (hasSub (firstWord playerName)
        (rawText.take ((subIdx wmark (lowerL rawText)).getD 0)))
    else none
  let wonFinal : Option Bool :=
    if ¬isW ∧ sets ≠ [] then some (setsCountWon sets) else wonWalk
  { rawText := rawText, won := wonFinal, isWalkover := isW,
    sets := sets, extraction := extraction }

/-- Whether a set token renders as a string matching the merged-score
pattern digits-dash-digits with two or more digits on both sides
(source line 431). -/
def looksMerged : SetToken → Bool
  | SetToken.plain a b => decide (10 ≤ a) && decide (10 ≤ b)
  | _ => false

/-- Per-token step of the hasSuperTiebreak detection of fixMatchData
(source lines 442-460), where n is the number of sets of the match. -/
def hasSTBfixTok (n : Nat) : SetToken → Bool
  | SetToken.stb _ _ _ => true
  | SetToken.stbBare _ => decide (3 ≤ n)
  | SetToken.tb a b _ _ =>
    (decide (a ≤ 1) && decide (b ≤ 1)) || decide (10 ≤ a) || decide (10 ≤ b)
  | SetToken.plain a b =>
    decide (10 ≤ a) || decide (10 ≤ b) ||
      (((a == 1 && b == 0) || (a == 0 && b == 1)) && decide (3 ≤ n))

/-- hasSuperTiebreak of fixMatchData over a set list. -/
def hasSTBfix (sets : List SetToken) : Bool := sets.any (hasSTBfixTok sets.length)

/-- Set counting of fixMatchData (source lines 464-491) on the
parenthetical-stripped pair of each set string. -/
def countSetsFix (hSTB : Bool) (sets : List SetToken) : Nat × Nat :=
  sets.foldl
    (fun p t =>
      let ab : Nat × Nat :=
        match t with
        | SetToken.plain a b => (a, b)
        | SetToken.tb a b _ _ => (a, b)
        | SetToken.stb w _ _ => if w then (1, 0) else (0, 1)
        | SetToken.stbBare w => if w then (1, 0) else (0, 1)
      if hSTB = true ∧ ab = (1, 0) then (p.1 + 1, p.2)
      else if hSTB = true ∧ ab = (0, 1) then (p.1, p.2 + 1)
      else if ab.1 > ab.2 then (p.1 + 1, p.2)
      else if ab.2 > ab.1 then (p.1, p.2 + 1)
      else p)
    (0, 0)

/-- fixMatchData for one singles match (source lines 416-519): choose the
set list, recount the winner from it, fall back to the original or parsed
winner when no set decided, and finally override the winner for walkovers
from the original won field with default true. -/
def fixMatch (m : SMatch) : Bool × List SetToken :=
  let parsed := parseScoresFromRawText m.extraction
  let sets :=
    match m.sets with
    | [] => parsed.1
    | s0 :: _ => if looksMerged s0 then parsed.1 else m.sets
  let hSTB := hasSTBfix sets
  let c := countSetsFix hSTB sets
  let won0 : Bool := decide (c.1 > c.2)
  let won1 : Bool :=
    if c.1 = 0 ∧ c.2 = 0 ∧ m.won.isSome then m.won.getD won0
    else if c.1 = 0 ∧ c.2 = 0 ∧ parsed.2.isSome then parsed.2.getD won0
    else won0
  let isW := m.isWalkover || hasSub wmark (lowerL m.rawText)
  let won2 := if isW then m.won.getD true else won1
  (won2, sets)

/-!
Derived classification helpers used by the theorems below.
-/

/-- Whether an emitted set has a tied score, in which case the scan
increments neither set-win counter. -/
def tiedTok : SetToken → Bool
  | SetToken.plain a b => a == b
  | _ => false

/-- Number of emitted sets with a tied score. -/
def tieCnt (l : List SetToken) : Nat := l.countP tiedTok

/-- Accepted super-tiebreak scores carry at least one side of 10 or more. -/
def stbScoreOk : SetToken → Prop
  | SetToken.stb _ a b => 10 ≤ a ∨ 10 ≤ b
  | _ => True

/-- Combined invariant of a scan result: the two set-win counters together
with the tied sets account for every emitted set, and every emitted
super-tiebreak score has a side of at least 10. -/
def scanOut (r : List SetToken × Nat × Nat) : Prop :=
  r.2.1 + r.2.2 + tieCnt r.1 = r.1.length ∧ ∀ t ∈ r.1, stbScoreOk t

/-- Whether the aggregator regex cascade classifies the token as a super
tiebreak (with or without score, or a plain score of 10 or more). -/
def isSTBclass : SetToken → Bool
  | SetToken.stb _ _ _ => true
  | SetToken.stbBare _ => true
  | SetToken.tb a b _ _ =>
    (decide (a ≤ 1) && decide (b ≤ 1)) || decide (10 ≤ a) || decide (10 ≤ b)
  | SetToken.plain a b =>
    (decide (a ≤ 1) && decide (b ≤ 1)) || decide (10 ≤ a) || decide (10 ≤ b)

/-- Games contributed by one set token in the per-set analysis. -/
def gameContrib : SetToken → Nat × Nat
  | SetToken.stb _ _ _ => (0, 0)
  | SetToken.stbBare _ => (0, 0)
  | SetToken.tb a b _ _ => if (a ≤ 1 ∧ b ≤ 1) ∨ 10 ≤ a ∨ 10 ≤ b then (0, 0) else (a, b)
  | SetToken.plain a b => if (a ≤ 1 ∧ b ≤ 1) ∨ 10 ≤ a ∨ 10 ≤ b then (0, 0) else (a, b)

/-- Contribution of one match to decidingSets.won. -/
def decDeltaW (m : AMatch) : Nat :=
  if m.isWalkover = false ∧ m.sets ≠ [] ∧ m.won = some true ∧
      deciderCond (analyzeSets m.sets) then 1 else 0

/-- Contribution of one match to decidingSets.lost. -/
def decDeltaL (m : AMatch) : Nat :=
  if m.isWalkover = false ∧ m.sets ≠ [] ∧ m.won = some false ∧
      deciderCond (analyzeSets m.sets) then 1 else 0

/-- Contribution of one match to gamesDifferential.wonWithFewer. -/
def gdFewDelta (m : AMatch) : Nat :=
  if m.isWalkover = false ∧ m.sets ≠ [] ∧ m.won = some true ∧
      (analyzeSets m.sets).gamesW < (analyzeSets m.sets).gamesL then 1 else 0

/-- Contribution of one match to gamesDifferential.lostWithMore. -/
def gdMoreDelta (m : AMatch) : Nat :=
  if m.isWalkover = false ∧ m.sets ≠ [] ∧ m.won = some false ∧
      (analyzeSets m.sets).gamesW > (analyzeSets m.sets).gamesL then 1 else 0

/-- Modelled from the spec: whether a set outcome is won by me, in the
SetOutcome data model of the specification. -/
def specWinMine : SetToken → Bool
  | SetToken.plain a b => decide (a > b)
  | SetToken.tb a b _ _ => decide (a > b)
  | SetToken.stb w _ _ => w
  | SetToken.stbBare w => w

/-- Modelled from the spec: whether a set outcome is won by the opponent. -/
def specWinOpp : SetToken → Bool
  | SetToken.plain a b => decide (b > a)
  | SetToken.tb a b _ _ => decide (b > a)
  | SetToken.stb w _ _ => !w
  | SetToken.stbBare w => !w

/-- Modelled from the spec: whether a set outcome is a SuperTiebreak. -/
def specIsSuperTB : SetToken → Bool
  | SetToken.stb _ _ _ => true
  | SetToken.stbBare _ => true
  | SetToken.plain a b => decide (10 ≤ a) || decide (10 ≤ b)
  | SetToken.tb _ _ _ _ => false

/-- Modelled from the spec wording of claim C7: both sides won at least one
set before the final one, or the final set is a super tiebreak. -/
def specDecider (sets : List SetToken) : Bool :=
  (sets.dropLast.any specWinMine && sets.dropLast.any specWinOpp) ||
    (match sets.getLast? with
     | some t => specIsSuperTB t
     | none => false)

/-!
Decoder lemmas: every branch of the scan preserves the counter invariant
and the accepted-score bound.
-/

lemma scanOut_nil : scanOut ([], 0, 0) := by
  refine ⟨rfl, ?_⟩
  intro t ht
  cases ht

lemma stbNoScore_out (my : Nat) : scanOut (stbNoScore my) := by
  unfold stbNoScore
  split <;>
    exact ⟨rfl, by
      intro t ht
      simp only [List.mem_singleton] at ht
      subst ht
      trivial⟩

lemma stbEmit_out (my : Nat) (p : Nat × Nat) : scanOut (stbEmit my p) := by
  unfold stbEmit
  split
  · next h =>
    split <;>
      exact ⟨rfl, by
        intro t ht
        simp only [List.mem_singleton] at ht
        subst ht
        exact h⟩
  · exact stbNoScore_out my

lemma stbScan_out (my : Nat) (us os : List Nat) : scanOut (stbScan my us os) := by
  unfold stbScan
  split
  · exact stbEmit_out my _
  · exact stbNoScore_out my

lemma fallbackScan_out (u o : List Nat) : scanOut (fallbackScan u o) := by
  unfold fallbackScan
  split
  · dsimp only
    split
    · next h2 =>
      have hne : (digitsToNat u == digitsToNat o) = false :=
        beq_eq_false_iff_ne.mpr h2.2
      split <;>
        exact ⟨by simp [tieCnt, tiedTok, hne], by
          intro t ht
          simp only [List.mem_singleton] at ht
          subst ht
          trivial⟩
    · exact scanOut_nil
  · exact scanOut_nil

lemma consSet_out (t : SetToken) (uinc oinc : Nat) (r : List SetToken × Nat × Nat)
    (h1 : uinc + oinc + (if tiedTok t = true then 1 else 0) = 1)
    (h2 : stbScoreOk t) (h3 : scanOut r) : scanOut (consSet t uinc oinc r) := by
  obtain ⟨hc, hm⟩ := h3
  constructor
  · simp only [consSet, tieCnt, List.countP_cons, List.length_cons]
    unfold tieCnt at hc
    by_cases hp : tiedTok t = true <;> simp only [hp, if_true, if_false] at h1 ⊢ <;> omega
  · intro x hx
    simp only [consSet, List.mem_cons] at hx
    rcases hx with rfl | hx
    · exact h2
    · exact hm x hx

lemma reg_inc (my opp : Nat) :
    (if my > opp then 1 else 0) + (if opp > my then 1 else 0) +
      (if tiedTok (SetToken.plain my opp) = true then 1 else 0) = 1 := by
  simp only [tiedTok]
  by_cases e : my = opp
  · subst e
    simp
  · have hb : (my == opp) = false := beq_eq_false_iff_ne.mpr e
    by_cases g : opp < my
    · have g2 : ¬my < opp := by omega
      simp [gt_iff_lt, g, g2, hb]
    · have g2 : my < opp := by omega
      simp [gt_iff_lt, g, g2, hb]

lemma sig_inc (my opp : Nat) (h : (my = 7 ∧ opp = 6) ∨ (my = 6 ∧ opp = 7)) (t : SetToken)
    (ht : tiedTok t = false) :
    (if my > opp then 1 else 0) + (if my > opp then 0 else 1) +
      (if tiedTok t = true then 1 else 0) = 1 := by
  rcases h with ⟨rfl, rfl⟩ | ⟨rfl, rfl⟩ <;> simp [ht]

lemma scan_out_aux : ∀ n u o, u.length ≤ n → scanOut (scan u o) := by
  intro n
  induction n with
  | zero =>
    intro u o h
    have hu : u = [] := List.eq_nil_of_length_eq_zero (Nat.le_zero.mp h)
    subst hu
    exact scanOut_nil
  | succ n ih =>
    intro u o h
    match u, o with
    | [], _ => exact scanOut_nil
    | _ :: _, [] => exact scanOut_nil
    | my :: us, opp :: os =>
      rw [scan.eq_def]
      dsimp only
      split
      · next h1 =>
        split
        · next nm us2 no os2 =>
          split
          · refine consSet_out _ _ _ _ (sig_inc my opp h1 _ rfl) trivial (ih us2 os2 ?_)
            simp only [List.length_cons] at h
            omega
          · refine consSet_out _ _ _ _ (sig_inc my opp h1 _ ?_) trivial
              (ih (nm :: us2) (no :: os2) ?_)
            · rcases h1 with ⟨rfl, rfl⟩ | ⟨rfl, rfl⟩ <;> rfl
            · simp only [List.length_cons] at h ⊢
              omega
        · next hne =>
          refine consSet_out _ _ _ _ (sig_inc my opp h1 _ ?_) trivial scanOut_nil
          rcases h1 with ⟨rfl, rfl⟩ | ⟨rfl, rfl⟩ <;> rfl
      · split
        · exact stbScan_out my us os
        · split
          · refine consSet_out _ _ _ _ (reg_inc my opp) trivial (ih us os ?_)
            simp only [List.length_cons] at h
            omega
          · exact fallbackScan_out (my :: us) (opp :: os)

lemma scan_out (u o : List Nat) : scanOut (scan u o) :=
  scan_out_aux u.length u o le_rfl

/-- Claim C1, counterexample: on the digit strings "6" and "6" the decoder
emits the single tied set "6-6" and increments neither set-win counter, so
mySetsWon + oppSetsWon is 0 while len(sets) is 1. -/
theorem claim_C1_counterexample :
    scan [6] [6] = ([SetToken.plain 6 6], 0, 0) ∧
      (scan [6] [6]).2.1 + (scan [6] [6]).2.2 ≠ (scan [6] [6]).1.length := by
  decide

/-- Claim C1 (amended): for every pair of digit lists the decoded result
satisfies mySetsWon + oppSetsWon + (number of emitted tied regular sets)
= len(sets) — every emitted set increments exactly one set-win counter
except a tied regular set, which increments neither — and the derived won
flag always equals mySetsWon > oppSetsWon. -/
theorem claim_C1_theorem (u o : List Nat) :
    (scan u o).2.1 + (scan u o).2.2 + tieCnt (scan u o).1 = (scan u o).1.length ∧
      (decodeDigits u o).2 = decide ((scan u o).2.1 > (scan u o).2.2) :=
  ⟨(scan_out u o).1, rfl⟩

/-- Claim C2, counterexample: the digit strings "0" and "0" are extracted
but decode to zero sets, and the decoder returns won = false rather than
unknown. -/
theorem claim_C2_counterexample :
    parseScoresFromRawText (some ([0], [0])) = ([], some false) ∧
      (some false : Option Bool) ≠ none := by
  decide

/-- Claim C2 (amended): the decoder is total and never throws; it returns
won = unknown exactly when the digit extraction fails (or rawText is
absent), while an extracted input that decodes to zero sets yields an empty
set list with the definite value won = false. -/
theorem claim_C2_theorem (u o : List Nat) :
    ((parseScoresFromRawText (some (u, o))).1 = [] →
      (parseScoresFromRawText (some (u, o))).2 = some false) ∧
      parseScoresFromRawText none = ([], none) := by
  refine ⟨?_, rfl⟩
  intro h
  have hc := (scan_out u o).1
  have h1 : (scan u o).1 = [] := h
  rw [h1] at hc
  simp only [tieCnt, List.countP_nil, List.length_nil] at hc
  have h2 : (scan u o).2.1 = 0 := by omega
  have h3 : (scan u o).2.2 = 0 := by omega
  simp [parseScoresFromRawText, h2, h3]

/-- Witness for claim C2 at the concrete extracted input ("0", "0"). -/
theorem claim_C2_witness :
    (parseScoresFromRawText (some ([0], [0]))).1 = [] ∧
      (parseScoresFromRawText (some ([0], [0]))).2 = some false :=
  ⟨by decide, (claim_C2_theorem [0] [0]).1 (by decide)⟩

/-- Claim C3: decoding my = "56110" against opp = "7106" yields the sets
5-7, 6-1 and the super tiebreak 10-6 won by me (rendered "1-0(10-6)" by the
source), with won = true by two sets to one. -/
theorem claim_C3_theorem :
    decodeDigits [5, 6, 1, 1, 0] [7, 1, 0, 6] =
      ([SetToken.plain 5 7, SetToken.plain 6 1, SetToken.stb true 10 6], true) ∧
      (scan [5, 6, 1, 1, 0] [7, 1, 0, 6]).2.1 = 2 ∧
      (scan [5, 6, 1, 1, 0] [7, 1, 0, 6]).2.2 = 1 := by
  decide

/-- Claim C4, counterexample: after the (0,1) indicator with remaining
digits my = "9", opp = "10", the opponent first-two strategy accepts the
score 9-10, whose margin is 1, not at least 2. -/
theorem claim_C4_counterexample :
    scan [0, 9] [1, 1, 0] = ([SetToken.stb false 9 10], 0, 1) ∧ ¬2 ≤ 10 - 9 := by
  decide

/-- Claim C4 (amended): a candidate super-tiebreak score is accepted
exactly when at least one side is at least 10 — there is no minimum-margin
requirement — with the interpretations tried in order: the special "0-11"
case, the opponent first-two digits against my last digit, the symmetric
case, then wholesale concatenation of the remaining digits. -/
theorem claim_C4_theorem (u o : List Nat) (t : SetToken) (ht : t ∈ (scan u o).1) :
    ∀ w a b, t = SetToken.stb w a b → 10 ≤ a ∨ 10 ≤ b := by
  rintro w a b rfl
  exact (scan_out u o).2 _ ht

/-- Witness for claim C4 at the concrete input my = "09", opp = "110". -/
theorem claim_C4_witness :
    SetToken.stb false 9 10 ∈ (scan [0, 9] [1, 1, 0]).1 ∧ (10 ≤ 9 ∨ 10 ≤ 10) :=
  ⟨by decide, claim_C4_theorem [0, 9] [1, 1, 0] _ (by decide) false 9 10 rfl⟩

lemma stbStep_out (a : SetAn) (b : Bool) :
    (if b then stbWonStep a else stbLostStep a).gamesW = a.gamesW ∧
    (if b then stbWonStep a else stbLostStep a).gamesL = a.gamesL ∧
    (if b then stbWonStep a else stbLostStep a).setsW +
        (if b then stbWonStep a else stbLostStep a).setsL = a.setsW + a.setsL + 1 ∧
    (if b then stbWonStep a else stbLostStep a).stbW +
        (if b then stbWonStep a else stbLostStep a).stbL = a.stbW + a.stbL + 1 ∧
    (if b then stbWonStep a else stbLostStep a).tbW = a.tbW ∧
    (if b then stbWonStep a else stbLostStep a).tbL = a.tbL ∧
    (if b then stbWonStep a else stbLostStep a).bagG = a.bagG ∧
    (if b then stbWonStep a else stbLostStep a).bagR = a.bagR := by
  cases b <;> simp [stbWonStep, stbLostStep] <;> omega

/-- Claim C6: in the per-set fold of the aggregator, every set contributes
its two game counts to the game totals except a super-tiebreak-classified
set, which contributes no games and instead adds exactly one set to the set
totals and one outcome to the super-tiebreak counters (and leaves the
tiebreak and bagel counters alone); a genuine tiebreak set 7-6 or 6-7
contributes exactly its 7 and 6 games. -/
theorem claim_C6_theorem (a : SetAn) (s : SetToken) :
    (setStep a s).gamesW = a.gamesW + (gameContrib s).1 ∧
    (setStep a s).gamesL = a.gamesL + (gameContrib s).2 ∧
    (isSTBclass s = true →
      gameContrib s = (0, 0) ∧
      (setStep a s).setsW + (setStep a s).setsL = a.setsW + a.setsL + 1 ∧
      (setStep a s).stbW + (setStep a s).stbL = a.stbW + a.stbL + 1 ∧
      (setStep a s).tbW = a.tbW ∧ (setStep a s).tbL = a.tbL ∧
      (setStep a s).bagG = a.bagG ∧ (setStep a s).bagR = a.bagR) ∧
    (∀ x y u v, s = SetToken.tb x y u v → (x = 7 ∧ y = 6) ∨ (x = 6 ∧ y = 7) →
      gameContrib s = (x, y)) := by
  cases s with
  | stb w p q =>
    obtain ⟨g1, g2, g3, g4, g5, g6, g7, g8⟩ := stbStep_out a w
    exact ⟨by simpa using g1, by simpa using g2,
      fun _ => ⟨rfl, g3, g4, g5, g6, g7, g8⟩, fun x y u v heq => by cases heq⟩
  | stbBare w =>
    obtain ⟨g1, g2, g3, g4, g5, g6, g7, g8⟩ := stbStep_out a w
    exact ⟨by simpa using g1, by simpa using g2,
      fun _ => ⟨rfl, g3, g4, g5, g6, g7, g8⟩, fun x y u v heq => by cases heq⟩
  | tb x y u v =>
    by_cases c1 : x ≤ 1 ∧ y ≤ 1
    · obtain ⟨g1, g2, g3, g4, g5, g6, g7, g8⟩ := stbStep_out a (x == 1)
      have hs : setStep a (SetToken.tb x y u v) =
          if x = 1 then stbWonStep a else stbLostStep a := by
        simp [setStep, c1]
      have hb : (if x = 1 then stbWonStep a else stbLostStep a) =
          if x == 1 then stbWonStep a else stbLostStep a := by
        by_cases hx : x = 1 <;> simp [hx]
      rw [hb] at hs
      have hg : gameContrib (SetToken.tb x y u v) = (0, 0) := by
        simp [gameContrib, c1]
      rw [hs, hg]
      exact ⟨by simpa using g1, by simpa using g2,
        fun _ => ⟨rfl, g3, g4, g5, g6, g7, g8⟩,
        fun x' y' u' v' heq => by cases heq; omega⟩
    · by_cases c2 : (x = 6 ∨ x = 7) ∧ (y = 6 ∨ y = 7)
      · have hs : setStep a (SetToken.tb x y u v) = tbStep a x y := by
          simp [setStep, c1, c2]
        have hg : gameContrib (SetToken.tb x y u v) = (x, y) := by
          have : ¬((x ≤ 1 ∧ y ≤ 1) ∨ 10 ≤ x ∨ 10 ≤ y) := by
            rcases c2 with ⟨hx | hx, hy | hy⟩ <;> omega
          simp [gameContrib, this]
        rw [hs, hg]
        refine ⟨rfl, rfl, fun hstb => ?_, fun x' y' u' v' heq _ => by cases heq; rfl⟩
        exfalso
        simp only [isSTBclass, Bool.or_eq_true, Bool.and_eq_true,
          decide_eq_true_eq] at hstb
        rcases c2 with ⟨hx | hx, hy | hy⟩ <;> omega
      · by_cases c3 : 10 ≤ x ∨ 10 ≤ y
        · have hs : setStep a (SetToken.tb x y u v) =
              if x > y then stbWonStep a else stbLostStep a := by
            simp [setStep, regStep, c1, c2, c3]
          have hb : (if x > y then stbWonStep a else stbLostStep a) =
              if decide (x > y) then stbWonStep a else stbLostStep a := by
            by_cases hx : x > y <;> simp [hx]
          rw [hb] at hs
          obtain ⟨g1, g2, g3, g4, g5, g6, g7, g8⟩ := stbStep_out a (decide (x > y))
          have hg : gameContrib (SetToken.tb x y u v) = (0, 0) := by
            simp [gameContrib, c3]
          rw [hs, hg]
          refine ⟨by simpa using g1, by simpa using g2,
            fun _ => ⟨rfl, g3, g4, g5, g6, g7, g8⟩,
            fun x' y' u' v' heq hxy => by cases heq; rcases hxy with ⟨h1, h2⟩ | ⟨h1, h2⟩ <;> omega⟩
        · have hs : setStep a (SetToken.tb x y u v) =
              { a with
                gamesW := a.gamesW + x,
                gamesL := a.gamesL + y,
                setsW := if x > y then a.setsW + 1 else a.setsW,
                setsL := if y > x then a.setsL + 1 else a.setsL,
                bagG := if x = 6 ∧ y = 0 then a.bagG + 1 else a.bagG,
                bagR := if x = 0 ∧ y = 6 then a.bagR + 1 else a.bagR,
                brG := if x = 6 ∧ y = 1 then a.brG + 1 else a.brG,
                brR := if x = 1 ∧ y = 6 then a.brR + 1 else a.brR } := by
            simp [setStep, regStep, c1, c2, c3]
          have hg : gameContrib (SetToken.tb x y u v) = (x, y) := by
            simp [gameContrib, c1, c3]
          rw [hs, hg]
          refine ⟨rfl, rfl, fun hstb => ?_, fun x' y' u' v' heq hxy => ?_⟩
          · exfalso
            simp only [isSTBclass, Bool.or_eq_true, Bool.and_eq_true,
              decide_eq_true_eq] at hstb
            omega
          · cases heq
            rfl
  | plain x y =>
    by_cases c1 : x ≤ 1 ∧ y ≤ 1
    · obtain ⟨g1, g2, g3, g4, g5, g6, g7, g8⟩ := stbStep_out a (x == 1)
      have hs : setStep a (SetToken.plain x y) =
          if x = 1 then stbWonStep a else stbLostStep a := by
        simp [setStep, c1]
      have hb : (if x = 1 then stbWonStep a else stbLostStep a) =
          if x == 1 then stbWonStep a else stbLostStep a := by
        by_cases hx : x = 1 <;> simp [hx]
      rw [hb] at hs
      have hg : gameContrib (SetToken.plain x y) = (0, 0) := by
        simp [gameContrib, c1]
      rw [hs, hg]
      exact ⟨by simpa using g1, by simpa using g2,
        fun _ => ⟨rfl, g3, g4, g5, g6, g7, g8⟩, fun x' y' u' v' heq => by cases heq⟩
    · by_cases c2 : (x = 6 ∨ x = 7) ∧ (y = 6 ∨ y = 7)
      · have hs : setStep a (SetToken.plain x y) = tbStep a x y := by
          simp [setStep, c1, c2]
        have hg : gameContrib (SetToken.plain x y) = (x, y) := by
          have : ¬((x ≤ 1 ∧ y ≤ 1) ∨ 10 ≤ x ∨ 10 ≤ y) := by
            rcases c2 with ⟨hx | hx, hy | hy⟩ <;> omega
          simp [gameContrib, this]
        rw [hs, hg]
        refine ⟨rfl, rfl, fun hstb => ?_, fun x' y' u' v' heq => by cases heq⟩
        exfalso
        simp only [isSTBclass, Bool.or_eq_true, Bool.and_eq_true,
          decide_eq_true_eq] at hstb
        rcases c2 with ⟨hx | hx, hy | hy⟩ <;> omega
      · by_cases c3 : 10 ≤ x ∨ 10 ≤ y
        · have hs : setStep a (SetToken.plain x y) =
              if x > y then stbWonStep a else stbLostStep a := by
            simp [setStep, regStep, c1, c2, c3]
          have hb : (if x > y then stbWonStep a else stbLostStep a) =
              if decide (x > y) then stbWonStep a else stbLostStep a := by
            by_cases hx : x > y <;> simp [hx]
          rw [hb] at hs
          obtain ⟨g1, g2, g3, g4, g5, g6, g7, g8⟩ := stbStep_out a (decide (x > y))
          have hg : gameContrib (SetToken.plain x y) = (0, 0) := by
            simp [gameContrib, c3]
          rw [hs, hg]
          exact ⟨by simpa using g1, by simpa using g2,
            fun _ => ⟨rfl, g3, g4, g5, g6, g7, g8⟩, fun x' y' u' v' heq => by cases heq⟩
        · have hs : setStep a (SetToken.plain x y) =
              { a with
                gamesW := a.gamesW + x,
                gamesL := a.gamesL + y,
                setsW := if x > y then a.setsW + 1 else a.setsW,
                setsL := if y > x then a.setsL + 1 else a.setsL,
                bagG := if x = 6 ∧ y = 0 then a.bagG + 1 else a.bagG,
                bagR := if x = 0 ∧ y = 6 then a.bagR + 1 else a.bagR,
                brG := if x = 6 ∧ y = 1 then a.brG + 1 else a.brG,
                brR := if x = 1 ∧ y = 6 then a.brR + 1 else a.brR } := by
            simp [setStep, regStep, c1, c2, c3]
          have hg : gameContrib (SetToken.plain x y) = (x, y) := by
            simp [gameContrib, c1, c3]
          rw [hs, hg]
          refine ⟨rfl, rfl, fun hstb => ?_, fun x' y' u' v' heq => by cases heq⟩
          exfalso
          simp only [isSTBclass, Bool.or_eq_true, Bool.and_eq_true,
            decide_eq_true_eq] at hstb
          omega

/-- Witness for claim C6 at a super tiebreak with score 10-6 and at the
tiebreak set 7-6(3-1). -/
theorem claim_C6_witness :
    (setStep {} (SetToken.stb true 10 6)).gamesW =
        ({} : SetAn).gamesW + (gameContrib (SetToken.stb true 10 6)).1 ∧
    gameContrib (SetToken.stb true 10 6) = (0, 0) ∧
    (setStep {} (SetToken.stb true 10 6)).setsW + (setStep {} (SetToken.stb true 10 6)).setsL =
        ({} : SetAn).setsW + ({} : SetAn).setsL + 1 ∧
    gameContrib (SetToken.tb 7 6 3 1) = (7, 6) :=
  ⟨(claim_C6_theorem {} _).1,
    ((claim_C6_theorem ({} : SetAn) (SetToken.stb true 10 6)).2.2.1 rfl).1,
    ((claim_C6_theorem ({} : SetAn) (SetToken.stb true 10 6)).2.2.1 rfl).2.1,
    (claim_C6_theorem ({} : SetAn) (SetToken.tb 7 6 3 1)).2.2.2 7 6 3 1 rfl
      (Or.inl ⟨rfl, rfl⟩)⟩

/-!
Per-field extraction lemmas for the aggregator fold: the deciding-set and
games-differential counters increase by a per-match amount that does not
depend on the accumulated state.
-/

lemma stepMatch_decW (st : AggState) (m : AMatch) :
    (stepMatch st m).decidingSetsWon = st.decidingSetsWon + decDeltaW m := by
  unfold stepMatch decDeltaW
  by_cases hw : m.isWalkover = true
  · simp [hw]
  · have hw' : m.isWalkover = false := by simpa using hw
    by_cases hc : m.sets ≠ [] ∧ m.won = some true ∧ deciderCond (analyzeSets m.sets) <;>
      simp [stepNonWalk, hw', hc, and_assoc]

lemma stepMatch_decL (st : AggState) (m : AMatch) :
    (stepMatch st m).decidingSetsLost = st.decidingSetsLost + decDeltaL m := by
  unfold stepMatch decDeltaL
  by_cases hw : m.isWalkover = true
  · simp [hw]
  · have hw' : m.isWalkover = false := by simpa using hw
    by_cases hc : m.sets ≠ [] ∧ m.won = some false ∧ deciderCond (analyzeSets m.sets) <;>
      simp [stepNonWalk, hw', hc, and_assoc]

lemma stepMatch_gdFew (st : AggState) (m : AMatch) :
    (stepMatch st m).wonWithFewer = st.wonWithFewer + gdFewDelta m := by
  unfold stepMatch gdFewDelta
  by_cases hw : m.isWalkover = true
  · simp [hw]
  · have hw' : m.isWalkover = false := by simpa using hw
    by_cases hc : m.sets ≠ [] ∧ m.won = some true ∧
        (analyzeSets m.sets).gamesW < (analyzeSets m.sets).gamesL <;>
      simp [stepNonWalk, hw', hc, and_assoc]

lemma stepMatch_gdMore (st : AggState) (m : AMatch) :
    (stepMatch st m).lostWithMore = st.lostWithMore + gdMoreDelta m := by
  unfold stepMatch gdMoreDelta
  by_cases hw : m.isWalkover = true
  · simp [hw]
  · have hw' : m.isWalkover = false := by simpa using hw
    by_cases hc : m.sets ≠ [] ∧ m.won = some false ∧
        (analyzeSets m.sets).gamesW > (analyzeSets m.sets).gamesL <;>
      simp [stepNonWalk, hw', hc, and_assoc]

lemma foldl_decW (ms : List AMatch) : ∀ st : AggState,
    (ms.foldl stepMatch st).decidingSetsWon = st.decidingSetsWon + (ms.map decDeltaW).sum := by
  induction ms with
  | nil => intro st; simp
  | cons m ms ih =>
    intro st
    simp only [List.foldl_cons, List.map_cons, List.sum_cons]
    rw [ih, stepMatch_decW]
    omega

lemma foldl_decL (ms : List AMatch) : ∀ st : AggState,
    (ms.foldl stepMatch st).decidingSetsLost = st.decidingSetsLost + (ms.map decDeltaL).sum := by
  induction ms with
  | nil => intro st; simp
  | cons m ms ih =>
    intro st
    simp only [List.foldl_cons, List.map_cons, List.sum_cons]
    rw [ih, stepMatch_decL]
    omega

lemma foldl_gdFew (ms : List AMatch) : ∀ st : AggState,
    (ms.foldl stepMatch st).wonWithFewer = st.wonWithFewer + (ms.map gdFewDelta).sum := by
  induction ms with
  | nil => intro st; simp
  | cons m ms ih =>
    intro st
    simp only [List.foldl_cons, List.map_cons, List.sum_cons]
    rw [ih, stepMatch_gdFew]
    omega

lemma foldl_gdMore (ms : List AMatch) : ∀ st : AggState,
    (ms.foldl stepMatch st).lostWithMore = st.lostWithMore + (ms.map gdMoreDelta).sum := by
  induction ms with
  | nil => intro st; simp
  | cons m ms ih =>
    intro st
    simp only [List.foldl_cons, List.map_cons, List.sum_cons]
    rw [ih, stepMatch_gdMore]
    omega

lemma setStep_hasSTB (a : SetAn) (s : SetToken) :
    (setStep a s).hasSTB = (a.hasSTB || isSTBclass s) := by
  cases s with
  | stb w p q => cases w <;> simp [setStep, stbWonStep, stbLostStep, isSTBclass]
  | stbBare w => cases w <;> simp [setStep, stbWonStep, stbLostStep, isSTBclass]
  | tb x y u v =>
    by_cases c1 : x ≤ 1 ∧ y ≤ 1
    · by_cases hx : x = 1
      · subst hx
        have hcls : isSTBclass (SetToken.tb 1 y u v) = true := by
          simp only [isSTBclass, Bool.or_eq_true, Bool.and_eq_true, decide_eq_true_eq]
          omega
        simp [setStep, c1, stbWonStep, hcls]
      · have hcls : isSTBclass (SetToken.tb x y u v) = true := by
          simp only [isSTBclass, Bool.or_eq_true, Bool.and_eq_true, decide_eq_true_eq]
          omega
        simp [setStep, c1, hx, stbLostStep, hcls]
    · by_cases c2 : (x = 6 ∨ x = 7) ∧ (y = 6 ∨ y = 7)
      · have hcls : isSTBclass (SetToken.tb x y u v) = false := by
          simp only [isSTBclass, Bool.or_eq_false_iff, Bool.and_eq_false_iff,
            decide_eq_false_iff_not]
          rcases c2 with ⟨hx | hx, hy | hy⟩ <;> subst hx <;> subst hy <;> simp
        simp [setStep, c1, c2, tbStep, hcls]
      · by_cases c3 : 10 ≤ x ∨ 10 ≤ y
        · have hcls : isSTBclass (SetToken.tb x y u v) = true := by
            simp only [isSTBclass, Bool.or_eq_true, Bool.and_eq_true, decide_eq_true_eq]
            omega
          by_cases hxy : x > y <;>
            simp [setStep, regStep, c1, c2, c3, hxy, stbWonStep, stbLostStep, hcls]
        · have hcls : isSTBclass (SetToken.tb x y u v) = false := by
            simp only [isSTBclass, Bool.or_eq_false_iff, Bool.and_eq_false_iff,
              decide_eq_false_iff_not]
            omega
          simp [setStep, regStep, c1, c2, c3, hcls]
  | plain x y =>
    by_cases c1 : x ≤ 1 ∧ y ≤ 1
    · by_cases hx : x = 1
      · subst hx
        have hcls : isSTBclass (SetToken.plain 1 y) = true := by
          simp only [isSTBclass, Bool.or_eq_true, Bool.and_eq_true, decide_eq_true_eq]
          omega
        simp [setStep, c1, stbWonStep, hcls]
      · have hcls : isSTBclass (SetToken.plain x y) = true := by
          simp only [isSTBclass, Bool.or_eq_true, Bool.and_eq_true, decide_eq_true_eq]
          omega
        simp [setStep, c1, hx, stbLostStep, hcls]
    · by_cases c2 : (x = 6 ∨ x = 7) ∧ (y = 6 ∨ y = 7)
      · have hcls : isSTBclass (SetToken.plain x y) = false := by
          simp only [isSTBclass, Bool.or_eq_false_iff, Bool.and_eq_false_iff,
            decide_eq_false_iff_not]
          rcases c2 with ⟨hx | hx, hy | hy⟩ <;> subst hx <;> subst hy <;> simp
        simp [setStep, c1, c2, tbStep, hcls]
      · by_cases c3 : 10 ≤ x ∨ 10 ≤ y
        · have hcls : isSTBclass (SetToken.plain x y) = true := by
            simp only [isSTBclass, Bool.or_eq_true, Bool.and_eq_true, decide_eq_true_eq]
            omega
          by_cases hxy : x > y <;>
            simp [setStep, regStep, c1, c2, c3, hxy, stbWonStep, stbLostStep, hcls]
        · have hcls : isSTBclass (SetToken.plain x y) = false := by
            simp only [isSTBclass, Bool.or_eq_false_iff, Bool.and_eq_false_iff,
              decide_eq_false_iff_not]
            omega
          simp [setStep, regStep, c1, c2, c3, hcls]

lemma foldl_hasSTB (l : List SetToken) : ∀ a : SetAn,
    (l.foldl setStep a).hasSTB = (a.hasSTB || l.any isSTBclass) := by
  induction l with
  | nil => intro a; simp
  | cons s l ih =>
    intro a
    simp only [List.foldl_cons, List.any_cons]
    rw [ih, setStep_hasSTB]
    cases a.hasSTB <;> cases isSTBclass s <;> simp

lemma analyzeSets_hasSTB (l : List SetToken) :
    (analyzeSets l).hasSTB = l.any isSTBclass := by
  unfold analyzeSets
  rw [foldl_hasSTB]
  rfl

/-- Claim C7, counterexample: the two-set match 6-4 4-6 lost by me is
counted as a deciding-set loss by the aggregator, although neither side had
won a set before the final one and the final set is not a super tiebreak,
so the claim as stated predicts no deciding-set classification. -/
theorem claim_C7_counterexample :
    (genState [⟨some false, false, [SetToken.plain 6 4, SetToken.plain 4 6],
        some "X", none, some 0, none, none, none, none⟩]).decidingSetsLost = 1 ∧
      specDecider [SetToken.plain 6 4, SetToken.plain 4 6] = false := by
  constructor
  · rfl
  · rfl

/-- Claim C7 (amended): for every match list, the deciding-set counters
equal the number of non-walkover matches with a non-empty set list whose
per-set analysis shows at least one set won and one lost over all sets
(including the final one), or some set classified as a super tiebreak
(anywhere, not only in final position), split by won = true versus
won = false; and the analysis super-tiebreak flag holds exactly when some
set is super-tiebreak-classified. -/
theorem claim_C7_theorem (ms : List AMatch) (l : List SetToken) :
    (genState ms).decidingSetsWon = (ms.map decDeltaW).sum ∧
    (genState ms).decidingSetsLost = (ms.map decDeltaL).sum ∧
    (analyzeSets l).hasSTB = l.any isSTBclass := by
  refine ⟨?_, ?_, analyzeSets_hasSTB l⟩
  · rw [genState, foldl_decW]
    simp
  · rw [genState, foldl_decL]
    simp

/-- Claim C9: the games-differential anomaly counters are compositional
over list append and therefore monotone under extension: folding a prefix
and then the rest gives the same counters as folding the whole list, and a
prefix never exceeds the whole. -/
theorem claim_C9_theorem (p q : List AMatch) :
    (genState (p ++ q)).wonWithFewer =
        (genState p).wonWithFewer + (genState q).wonWithFewer ∧
    (genState (p ++ q)).lostWithMore =
        (genState p).lostWithMore + (genState q).lostWithMore ∧
    (genState p).wonWithFewer ≤ (genState (p ++ q)).wonWithFewer ∧
    (genState p).lostWithMore ≤ (genState (p ++ q)).lostWithMore := by
  have h1 : ∀ ms : List AMatch, (genState ms).wonWithFewer = (ms.map gdFewDelta).sum := by
    intro ms
    rw [genState, foldl_gdFew]
    simp
  have h2 : ∀ ms : List AMatch, (genState ms).lostWithMore = (ms.map gdMoreDelta).sum := by
    intro ms
    rw [genState, foldl_gdMore]
    simp
  simp only [h1, h2, List.map_append, List.sum_append]
  exact ⟨trivial, trivial, Nat.le_add_right _ _, Nat.le_add_right _ _⟩

/-!
Frame lemmas for the walkover skip: the non-walkover step neither reads nor
writes the walkover counter.
-/

lemma stepNonWalk_walkovers (st : AggState) (m : AMatch) (k : Nat) :
    stepNonWalk { st with walkovers := k } m = { stepNonWalk st m with walkovers := k } :=
  rfl

lemma stepMatch_walkovers (st : AggState) (m : AMatch) :
    (stepMatch st m).walkovers = st.walkovers + (if m.isWalkover then 1 else 0) := by
  unfold stepMatch
  by_cases hw : m.isWalkover = true <;> simp [hw, stepNonWalk]

lemma stepMatch_walkover_comm (st : AggState) (m : AMatch) (k : Nat) :
    stepMatch { st with walkovers := k } m =
      { stepMatch st m with walkovers := k + (if m.isWalkover then 1 else 0) } := by
  unfold stepMatch
  by_cases hw : m.isWalkover = true
  · cases st
    simp [hw]
  · simp [hw, stepNonWalk_walkovers]

lemma foldl_walkover_comm (ms : List AMatch) : ∀ (st : AggState) (k : Nat),
    ms.foldl stepMatch { st with walkovers := k } =
      { ms.foldl stepMatch st with
        walkovers := k + (ms.map (fun m => if m.isWalkover then 1 else 0)).sum } := by
  induction ms with
  | nil =>
    intro st k
    simp
  | cons m ms ih =>
    intro st k
    simp only [List.foldl_cons, List.map_cons, List.sum_cons]
    rw [stepMatch_walkover_comm, ih, Nat.add_assoc]

lemma foldl_walkovers (ms : List AMatch) : ∀ st : AggState,
    (ms.foldl stepMatch st).walkovers =
      st.walkovers + (ms.map (fun m => if m.isWalkover then 1 else 0)).sum := by
  induction ms with
  | nil => intro st; simp
  | cons m ms ih =>
    intro st
    simp only [List.foldl_cons, List.map_cons, List.sum_cons]
    rw [ih, stepMatch_walkovers]
    omega

/-- Claim C10: inserting a walkover match anywhere in the aggregator input
changes exactly the walkover counter of the resulting fold state: the
record, streaks, opponent table, all set, game, tiebreak, bagel and
differential counters, and the pushed match list feeding the monthly and
comeback passes are those of the list without that match. -/
theorem claim_C10_theorem (xs ys : List AMatch) (w : AMatch)
    (hw : w.isWalkover = true) :
    genState (xs ++ w :: ys) =
      { genState (xs ++ ys) with
        walkovers := (genState (xs ++ ys)).walkovers + 1 } := by
  unfold genState
  rw [List.foldl_append, List.foldl_append, List.foldl_cons]
  have h1 : stepMatch (xs.foldl stepMatch {}) w =
      { xs.foldl stepMatch {} with
        walkovers := (xs.foldl stepMatch {}).walkovers + 1 } := by
    unfold stepMatch
    simp [hw]
  rw [h1, foldl_walkover_comm, foldl_walkovers ys]
  dsimp only
  congr 1
  omega

/-- Witness for claim C10: one win, one inserted walkover, one loss. -/
theorem claim_C10_witness :
    genState
        [⟨some true, false, [SetToken.plain 6 4, SetToken.plain 6 2], some "A", none,
            some 0, none, none, none, none⟩,
          ⟨some true, true, [], some "B", none, some 1, none, none, none, none⟩,
          ⟨some false, false, [SetToken.plain 3 6, SetToken.plain 4 6], some "A", none,
            some 1, none, none, none, none⟩] =
      { genState
          [⟨some true, false, [SetToken.plain 6 4, SetToken.plain 6 2], some "A", none,
              some 0, none, none, none, none⟩,
            ⟨some false, false, [SetToken.plain 3 6, SetToken.plain 4 6], some "A", none,
              some 1, none, none, none, none⟩] with
        walkovers :=
          (genState
              [⟨some true, false, [SetToken.plain 6 4, SetToken.plain 6 2], some "A", none,
                  some 0, none, none, none, none⟩,
                ⟨some false, false, [SetToken.plain 3 6, SetToken.plain 4 6], some "A", none,
                  some 1, none, none, none, none⟩]).walkovers + 1 } :=
  claim_C10_theorem
    [⟨some true, false, [SetToken.plain 6 4, SetToken.plain 6 2], some "A", none,
        some 0, none, none, none, none⟩]
    [⟨some false, false, [SetToken.plain 3 6, SetToken.plain 4 6], some "A", none,
        some 1, none, none, none, none⟩]
    ⟨some true, true, [], some "B", none, some 1, none, none, none, none⟩
    rfl

/-!
Lemmas on the stable descending sort of the monthly breakdown.
-/

lemma insDesc_ne_nil (x : MonthEntry) (l : List MonthEntry) : insDesc x l ≠ [] := by
  cases l with
  | nil => simp [insDesc]
  | cons h t =>
    unfold insDesc
    split <;> simp

lemma insDesc_mem (x y : MonthEntry) (l : List MonthEntry) :
    y ∈ insDesc x l ↔ y = x ∨ y ∈ l := by
  induction l with
  | nil => simp [insDesc]
  | cons h t ih =>
    unfold insDesc
    split <;> simp only [List.mem_cons, ih] <;> tauto

lemma sortDescM_mem (y : MonthEntry) (l : List MonthEntry) :
    y ∈ sortDescM l ↔ y ∈ l := by
  induction l with
  | nil => simp [sortDescM]
  | cons x t ih => simp [sortDescM, insDesc_mem, ih]

lemma insDesc_head (x : MonthEntry) (l : List MonthEntry) :
    (insDesc x l).head? =
      match l.head? with
      | none => some x
      | some h => if h.winPct > x.winPct then some h else some x := by
  cases l with
  | nil => simp [insDesc]
  | cons h t =>
    unfold insDesc
    split
    · next hgt => simp [hgt]
    · next hle => simp [hle]

lemma getLast?_cons_of_ne_nil (a : MonthEntry) (l : List MonthEntry) (h : l ≠ []) :
    (a :: l).getLast? = l.getLast? := by
  cases l with
  | nil => exact absurd rfl h
  | cons b t => exact List.getLast?_cons_cons

lemma insDesc_getLast (x : MonthEntry) (l : List MonthEntry) :
    (insDesc x l).getLast? =
      if l.all (fun h => decide (h.winPct > x.winPct)) then some x else l.getLast? := by
  induction l with
  | nil => simp [insDesc]
  | cons h t ih =>
    unfold insDesc
    split
    · next hgt =>
      rw [getLast?_cons_of_ne_nil h _ (insDesc_ne_nil x t), ih]
      by_cases ha : t.all (fun e => decide (e.winPct > x.winPct))
      · simp [ha, hgt]
      · have ht : t ≠ [] := by
          intro h0
          subst h0
          simp at ha
        rw [if_neg ha]
        have hall : ((h :: t).all fun e => decide (e.winPct > x.winPct)) = false := by
          simp only [List.all_cons, Bool.and_eq_false_iff]
          right
          simpa using ha
        rw [hall]
        simp only [Bool.false_eq_true, if_false]
        exact (getLast?_cons_of_ne_nil h t ht).symm
    · next hle =>
      have hall : ((h :: t).all fun e => decide (e.winPct > x.winPct)) = false := by
        simp only [List.all_cons, Bool.and_eq_false_iff]
        left
        simpa using hle
      rw [hall]
      simp [List.getLast?_cons_cons]

lemma maxPct?_eq_none (l : List MonthEntry) : maxPct? l = none ↔ l = [] := by
  cases l with
  | nil => simp [maxPct?]
  | cons x t =>
    simp only [maxPct?, List.foldr_cons]
    cases (t.foldr (fun e a =>
        match a with
        | none => some e.winPct
        | some v => some (max e.winPct v)) none) <;> simp

lemma maxPct?_cons_some (x : MonthEntry) (t : List MonthEntry) (M : Nat)
    (h : maxPct? t = some M) : maxPct? (x :: t) = some (max x.winPct M) := by
  simp only [maxPct?, List.foldr_cons] at h ⊢
  rw [h]

lemma minPct?_eq_none (l : List MonthEntry) : minPct? l = none ↔ l = [] := by
  cases l with
  | nil => simp [minPct?]
  | cons x t =>
    simp only [minPct?, List.foldr_cons]
    cases (t.foldr (fun e a =>
        match a with
        | none => some e.winPct
        | some v => some (min e.winPct v)) none) <;> simp

lemma minPct?_cons_some (x : MonthEntry) (t : List MonthEntry) (m : Nat)
    (h : minPct? t = some m) : minPct? (x :: t) = some (min x.winPct m) := by
  simp only [minPct?, List.foldr_cons] at h ⊢
  rw [h]

lemma minPct?_le (l : List MonthEntry) : ∀ m : Nat, minPct? l = some m →
    ∀ y ∈ l, m ≤ y.winPct := by
  induction l with
  | nil => simp
  | cons x t ih =>
    intro m h y hy
    cases ht : minPct? t with
    | none =>
      have ht0 : t = [] := (minPct?_eq_none t).mp ht
      subst ht0
      simp only [minPct?, List.foldr_cons, List.foldr_nil] at h
      cases h
      simp only [List.mem_singleton] at hy
      subst hy
      exact le_rfl
    | some m0 =>
      rw [minPct?_cons_some x t m0 ht] at h
      cases h
      simp only [List.mem_cons] at hy
      rcases hy with rfl | hy
      · exact min_le_left _ _
      · exact le_trans (min_le_right _ _) (ih m0 ht y hy)

lemma minPct?_attained (l : List MonthEntry) : ∀ m : Nat, minPct? l = some m →
    ∃ y ∈ l, y.winPct = m := by
  induction l with
  | nil => intro m h; simp [minPct?] at h
  | cons x t ih =>
    intro m h
    cases ht : minPct? t with
    | none =>
      have ht0 : t = [] := (minPct?_eq_none t).mp ht
      subst ht0
      simp only [minPct?, List.foldr_cons, List.foldr_nil] at h
      cases h
      exact ⟨x, List.mem_cons_self x [], rfl⟩
    | some m0 =>
      rw [minPct?_cons_some x t m0 ht] at h
      cases h
      by_cases hc : x.winPct ≤ m0
      · exact ⟨x, List.mem_cons_self x t, (min_eq_left hc).symm⟩
      · obtain ⟨y, hy, hym⟩ := ih m0 ht
        refine ⟨y, List.mem_cons_of_mem x hy, ?_⟩
        rw [hym]
        omega

lemma sortDescM_head (l : List MonthEntry) : (sortDescM l).head? = firstMax l := by
  induction l with
  | nil => simp [sortDescM, firstMax, maxPct?]
  | cons x t ih =>
    simp only [sortDescM]
    rw [insDesc_head]
    cases ht : (sortDescM t).head? with
    | none =>
      have hnil : sortDescM t = [] := List.head?_eq_none_iff.mp ht
      have ht0 : t = [] := by
        cases t with
        | nil => rfl
        | cons a b => exact absurd hnil (insDesc_ne_nil a (sortDescM b))
      subst ht0
      simp [firstMax, maxPct?]
    | some h =>
      have ihh : firstMax t = some h := by rw [← ih, ht]
      unfold firstMax at ihh
      cases hM : maxPct? t with
      | none =>
        rw [hM] at ihh
        cases ihh
      | some M =>
        rw [hM] at ihh
        dsimp only at ihh
        have hpct : h.winPct = M := by
          have hmem := List.find?_some ihh
          simpa using hmem
        -- the sorted head attains the maximum of t
        dsimp only
        by_cases hgt : h.winPct > x.winPct
        · rw [if_pos hgt]
          unfold firstMax
          rw [maxPct?_cons_some x t M hM]
          have hmax : max x.winPct M = M := by omega
          rw [hmax]
          have hx : (x.winPct == M) = false := by
            simp only [beq_eq_false_iff_ne, ne_eq]
            omega
          simp only [List.find?_cons, hx]
          exact ihh.symm
        · rw [if_neg hgt]
          unfold firstMax
          rw [maxPct?_cons_some x t M hM]
          have hmax : max x.winPct M = x.winPct := by omega
          rw [hmax]
          simp [List.find?_cons]

lemma find?_append_first {p : MonthEntry → Bool} (l1 l2 : List MonthEntry) :
    (l1 ++ l2).find? p = match l1.find? p with
      | some z => some z
      | none => l2.find? p := by
  induction l1 with
  | nil => simp
  | cons a t ih =>
    simp only [List.cons_append, List.find?_cons]
    by_cases ha : p a
    · simp [ha]
    · simp only [Bool.not_eq_true] at ha
      simp [ha, ih]

lemma sortDescM_getLast (l : List MonthEntry) : (sortDescM l).getLast? = lastMin l := by
  induction l with
  | nil => simp [sortDescM, lastMin, minPct?]
  | cons x t ih =>
    simp only [sortDescM]
    rw [insDesc_getLast]
    cases hm : minPct? t with
    | none =>
      have ht0 : t = [] := (minPct?_eq_none t).mp hm
      subst ht0
      simp [sortDescM, lastMin, minPct?, List.find?_cons]
    | some m =>
      have hle := minPct?_le t m hm
      have hatt := minPct?_attained t m hm
      by_cases hall : ∀ y ∈ t, x.winPct < y.winPct
      · have hallb : ((sortDescM t).all fun h => decide (h.winPct > x.winPct)) = true := by
          rw [List.all_eq_true]
          intro e he
          exact decide_eq_true (hall e ((sortDescM_mem e t).mp he))
        rw [hallb]
        simp only [if_true]
        unfold lastMin
        have hxm : x.winPct < m := by
          obtain ⟨y, hy, hym⟩ := hatt
          have := hall y hy
          omega
        rw [minPct?_cons_some x t m hm]
        have hmin : min x.winPct m = x.winPct := by omega
        rw [hmin]
        have hnone : t.reverse.find? (fun e => e.winPct == x.winPct) = none := by
          rw [List.find?_eq_none]
          intro y hy
          have hyt : y ∈ t := List.mem_reverse.mp hy
          have := hall y hyt
          simp only [beq_eq_false_iff_ne, ne_eq, Bool.not_eq_true]
          omega
        simp only [List.reverse_cons, find?_append_first, hnone]
        simp [List.find?_cons]
      · have hallb : ((sortDescM t).all fun h => decide (h.winPct > x.winPct)) = false := by
          push_neg at hall
          obtain ⟨y, hy, hxy⟩ := hall
          rw [List.all_eq_false]
          refine ⟨y, (sortDescM_mem y t).mpr hy, ?_⟩
          simp only [decide_eq_true_eq]
          omega
        rw [hallb]
        simp only [Bool.false_eq_true, if_false]
        rw [ih]
        unfold lastMin
        rw [hm, minPct?_cons_some x t m hm]
        have hxm : m ≤ x.winPct := by
          push_neg at hall
          obtain ⟨y, hy, hxy⟩ := hall
          have := hle y hy
          omega
        have hmin : min x.winPct m = m := by omega
        rw [hmin]
        have hsome : ∃ z, t.reverse.find? (fun e => e.winPct == m) = some z := by
          obtain ⟨y, hy, hym⟩ := hatt
          have hyr : y ∈ t.reverse := List.mem_reverse.mpr hy
          cases hf : t.reverse.find? (fun e => e.winPct == m) with
          | none =>
            rw [List.find?_eq_none] at hf
            have := hf y hyr
            simp [hym] at this
          | some z => exact ⟨z, rfl⟩
        obtain ⟨z, hz⟩ := hsome
        simp only [List.reverse_cons, find?_append_first, hz]

/-- Claim C8, counterexample: with one January win and two February wins,
January and February both have win percentage 100, February has more
matches, yet bestMonth is January — the stable sort keeps the
first-encountered month in front, and no matches-played tie-break exists. -/
theorem claim_C8_counterexample :
    bestMonthOf (genState
        [⟨some true, false, [], some "A", none, some 0, none, none, none, none⟩,
          ⟨some true, false, [], some "A", none, some 1, none, none, none, none⟩,
          ⟨some true, false, [], some "A", none, some 1, none, none, none, none⟩]).pushed =
      some ⟨0, 1, 0, 1, 100⟩ ∧
    monthlyData (genState
        [⟨some true, false, [], some "A", none, some 0, none, none, none, none⟩,
          ⟨some true, false, [], some "A", none, some 1, none, none, none, none⟩,
          ⟨some true, false, [], some "A", none, some 1, none, none, none, none⟩]).pushed =
      [⟨0, 1, 0, 1, 100⟩, ⟨1, 2, 0, 2, 100⟩] ∧
    (1 : Nat) < 2 := by
  refine ⟨?_, ?_, ?_⟩ <;> first | rfl | decide

/-- Claim C8 (amended): best and worst month are selected by win percentage
over the monthly breakdown, but the tie-break is bucket order, not matches
played: the stable descending sort makes bestMonth the first-appearing
month attaining the maximum win percentage and worstMonth the
last-appearing month attaining the minimum. -/
theorem claim_C8_theorem (pm : List PushedM) :
    bestMonthOf pm = firstMax (monthlyData pm) ∧
    worstMonthOf pm = lastMin (monthlyData pm) :=
  ⟨sortDescM_head (monthlyData pm), sortDescM_getLast (monthlyData pm)⟩

/-- Claim C5: for every fragment whose raw text carries the walkover marker,
the scraper marks the match as a walkover and sets won by the textual
heuristic — my first name occurring in the text before the marker — and the
normalization step keeps exactly that value (defaulting to true only were it
absent), never consulting the set count: the result is independent of the
scraped set list and of the decoded sets. -/
theorem claim_C5_theorem (rawText playerName : List Char) (sets : List SetToken)
    (extraction : Option (List Nat × List Nat))
    (hmark : hasSub wmark (lowerL rawText) = true) :
    (fixMatch (scrapeMatchModel rawText playerName sets extraction)).1 =
      hasSub (firstWord playerName)
        (rawText.take ((subIdx wmark (lowerL rawText)).getD 0)) := by
  unfold scrapeMatchModel fixMatch
  simp [hmark]

/-- Raw text of the concrete walkover fragment used in the C5 witness. -/
def wExampleRaw : List Char := "A Walkover".data

/-- Player name used in the C5 witness. -/
def wExampleName : List Char := "A B".data

/-- Witness for claim C5 at the fragment "A Walkover" for player "A B". -/
theorem claim_C5_witness :
    hasSub wmark (lowerL wExampleRaw) = true ∧
    (fixMatch (scrapeMatchModel wExampleRaw wExampleName [] none)).1 = true := by
  refine ⟨by decide, ?_⟩
  rw [claim_C5_theorem wExampleRaw wExampleName [] none (by decide)]
  decide
